import Mathlib

/-!
Verification of `src/Chapter01/adder/src/lib.rs`.

The repository exposes a single Rust function

  pub fn add(left: u64, right: u64) -> u64 { left + right }

and one unit test `it_works` asserting `add(2, 2) == 4`.

We embed `u64` values as natural numbers bounded by `U64_MAX = 2^64 - 1`.
Rust's `+` on `u64` has no explicit overflow provision in this source:
its behavior on overflow is the ambient default of the toolchain
(wrapping modulo `2^64` in release builds, a panic in debug builds).
We make that ambient default an explicit parameter `OverflowPolicy`,
and model a panic as `Option.none`.
-/

/-- The modulus of the unsigned 64-bit integer type. -/
def U64_MOD : Nat := 2 ^ 64

/-- The maximum representable `u64` value, `2^64 - 1`. -/
def U64_MAX : Nat := U64_MOD - 1

/-- The ambient integer-overflow policy of the Rust toolchain: `wrap`
(release profile, addition wraps modulo `2^64`) or `trap` (debug profile,
addition panics on overflow). The source makes no explicit choice. -/
inductive OverflowPolicy where
  | wrap : OverflowPolicy
  | trap : OverflowPolicy
deriving DecidableEq

/-- Embedding of `pub fn add(left: u64, right: u64) -> u64 { left + right }`
(src/Chapter01/adder/src/lib.rs, lines 1-3). The result of the in-range
addition is `left + right`; on overflow the result is dictated by the
ambient policy: wrapping yields `(left + right) % 2^64`, trapping yields
`none` (a panic). -/
def add (pol : OverflowPolicy) (left right : Nat) : Option Nat :=
  if left + right ≤ U64_MAX then
    some (left + right)
  else
    match pol with
    | OverflowPolicy.wrap => some ((left + right) % U64_MOD)
    | OverflowPolicy.trap => none

/-- Embedding of the unit test `it_works` (src/Chapter01/adder/src/lib.rs,
lines 9-16): `if add(2, 2) == 4 { Ok(()) } else { Err("2 + 2 != 4".to_string()) }`. -/
def it_works (pol : OverflowPolicy) : Except String Unit :=
  if add pol 2 2 = some 4 then
    Except.ok ()
  else
    Except.error "2 + 2 != 4"

/-- State-passing embedding of a call to `add` from a context holding an
ambient state of type `σ`. The Rust function body reads and writes no
state (no `static`s, no `&mut` arguments, no I/O), so the embedding
returns the ambient state unchanged alongside the pure result. -/
def addInState (σ : Type) (pol : OverflowPolicy) (s : σ) (left right : Nat) :
    Option Nat × σ :=
  (add pol left right, s)

/-- Two successive invocations of `add` from two execution contexts sharing
an ambient state `s`: context A computes `add l1 r1`, then context B
computes `add l2 r2`, threading the state through both calls. Returns
the pair of per-context results and the final state. -/
def runTwo (σ : Type) (pol : OverflowPolicy) (s : σ)
    (l1 r1 l2 r2 : Nat) : (Option Nat × Option Nat) × σ :=
  let a := addInState σ pol s l1 r1
  let b := addInState σ pol a.2 l2 r2
  ((a.1, b.1), b.2)

/- ### Helper lemmas -/

/-- On in-range inputs, `add` returns the exact sum under every policy. -/
theorem add_of_le (pol : OverflowPolicy) (left right : Nat)
    (h : left + right ≤ U64_MAX) : add pol left right = some (left + right) := by
  unfold add
  simp [h]

/- ### Claims -/

/-- C1: for every pair of u64 values `left` and `right` such that the true
sum `left + right` does not exceed the maximum representable u64 value,
`add left right` returns exactly `left + right`, under every ambient
overflow policy. -/
theorem add_exact (pol : OverflowPolicy) (left right : Nat)
    (hl : left ≤ U64_MAX) (hr : right ≤ U64_MAX)
    (h : left + right ≤ U64_MAX) :
    add pol left right = some (left + right) :=
  add_of_le pol left right h

/-- Witness for C1 at `left = 3`, `right = 4`. -/
theorem add_exact_witness :
    3 ≤ U64_MAX ∧ 4 ≤ U64_MAX ∧ 3 + 4 ≤ U64_MAX ∧
      add OverflowPolicy.trap 3 4 = some 7 :=
  ⟨by decide, by decide, by decide,
    add_exact OverflowPolicy.trap 3 4 (by decide) (by decide) (by decide)⟩

/-- C2: `add` makes no explicit error provision of its own. On every pair
of u64 inputs whose sum is in range it returns a value (under every
policy, so no error condition arises from the function itself); when the
sum exceeds the maximum, the outcome is exactly what the ambient
overflow policy dictates — wrapping modulo `2^64` under `wrap`, a panic
(`none`) under `trap`. -/
theorem add_no_explicit_error (pol : OverflowPolicy) (left right : Nat)
    (hl : left ≤ U64_MAX) (hr : right ≤ U64_MAX) :
    (left + right ≤ U64_MAX → ∃ v, add pol left right = some v) ∧
    (U64_MAX < left + right →
      add pol left right =
        match pol with
        | OverflowPolicy.wrap => some ((left + right) % U64_MOD)
        | OverflowPolicy.trap => none) := by
  constructor
  · intro h
    exact ⟨left + right, add_of_le pol left right h⟩
  · intro h
    unfold add
    simp [Nat.not_le.mpr h]

/-- Witness for C2 at `left = U64_MAX`, `right = 1` under the wrapping
policy: the in-range branch is vacuous there, and the overflow branch
yields the wrapped value `0`. -/
theorem add_no_explicit_error_witness :
    U64_MAX ≤ U64_MAX ∧ 1 ≤ U64_MAX ∧
      add OverflowPolicy.wrap U64_MAX 1 = some ((U64_MAX + 1) % U64_MOD) := by
  refine ⟨le_refl _, by decide, ?_⟩
  have h := add_no_explicit_error OverflowPolicy.wrap U64_MAX 1
    (le_refl _) (by decide)
  exact h.2 (by simp [U64_MAX, U64_MOD])

/-- C3: `add` is commutative: for every pair of u64 values whose sum stays
in range, `add left right = add right left`, under every policy. -/
theorem add_comm_nonoverflow (pol : OverflowPolicy) (left right : Nat)
    (hl : left ≤ U64_MAX) (hr : right ≤ U64_MAX)
    (h : left + right ≤ U64_MAX) :
    add pol left right = add pol right left := by
  rw [add_of_le pol left right h,
    add_of_le pol right left (by omega), Nat.add_comm]

/-- Witness for C3 at `left = 5`, `right = 9`. -/
theorem add_comm_nonoverflow_witness :
    5 ≤ U64_MAX ∧ 9 ≤ U64_MAX ∧ 5 + 9 ≤ U64_MAX ∧
      add OverflowPolicy.wrap 5 9 = add OverflowPolicy.wrap 9 5 :=
  ⟨by decide, by decide, by decide,
    add_comm_nonoverflow OverflowPolicy.wrap 5 9
      (by decide) (by decide) (by decide)⟩

/-- C4: zero is a right identity for `add`: for every representable u64
value `x`, `add x 0 = x`; in particular at the boundary,
`add U64_MAX 0 = U64_MAX`. Both hold under every policy. -/
theorem add_zero_right_identity (pol : OverflowPolicy) (x : Nat)
    (hx : x ≤ U64_MAX) :
    add pol x 0 = some x ∧ add pol U64_MAX 0 = some U64_MAX := by
  constructor
  · have := add_of_le pol x 0 (by omega)
    simpa using this
  · have := add_of_le pol U64_MAX 0 (by omega)
    simpa using this

/-- Witness for C4 at `x = U64_MAX` (the boundary case itself). -/
theorem add_zero_right_identity_witness :
    U64_MAX ≤ U64_MAX ∧
      add OverflowPolicy.trap U64_MAX 0 = some U64_MAX :=
  ⟨le_refl _, (add_zero_right_identity OverflowPolicy.trap U64_MAX
    (le_refl _)).1⟩

/-- C5: `add 2 2 = 4` exactly, under every policy, and consequently the
repository's single unit test `it_works` succeeds. -/
theorem add_two_two (pol : OverflowPolicy) :
    add pol 2 2 = some 4 ∧ it_works pol = Except.ok () := by
  have h : add pol 2 2 = some 4 := add_of_le pol 2 2 (by decide)
  exact ⟨h, by unfold it_works; simp [h]⟩

/-- C6: `add 0 0 = 0`, under every policy. -/
theorem add_zero_zero (pol : OverflowPolicy) :
    add pol 0 0 = some 0 :=
  add_of_le pol 0 0 (by decide)

/-- C7: `add` is pure and deterministic: a call leaves any ambient state
unchanged (no side effects), its result does not depend on the ambient
state, and two evaluations on the same inputs return the same result. -/
theorem add_pure_deterministic (σ : Type) (pol : OverflowPolicy)
    (s s' : σ) (left right : Nat) :
    (addInState σ pol s left right).2 = s ∧
    (addInState σ pol s left right).1 = (addInState σ pol s' left right).1 ∧
    add pol left right = add pol left right :=
  ⟨rfl, rfl, rfl⟩

/-- C8: concurrent invocations of `add` are independent: for two execution
contexts sharing an ambient state, running the calls in either order
gives each context the pure result of its own call, leaves the shared
state untouched, and so requires no locks or coordination. -/
theorem add_concurrent_independent (σ : Type) (pol : OverflowPolicy)
    (s : σ) (l1 r1 l2 r2 : Nat) :
    runTwo σ pol s l1 r1 l2 r2 =
      ((add pol l1 r1, add pol l2 r2), s) ∧
    (runTwo σ pol s l2 r2 l1 r1).1.2 = (runTwo σ pol s l1 r1 l2 r2).1.1 ∧
    (runTwo σ pol s l2 r2 l1 r1).2 = (runTwo σ pol s l1 r1 l2 r2).2 :=
  ⟨rfl, rfl, rfl⟩

/-- C9: `add` is associative on non-overflowing inputs: when the true sum
`a + b + c` stays in range, adding `a` and `b` first and then `c` agrees
with adding `b` and `c` first and then `a`, and both equal the exact
sum, under every policy. -/
theorem add_assoc_nonoverflow (pol : OverflowPolicy) (a b c : Nat)
    (ha : a ≤ U64_MAX) (hb : b ≤ U64_MAX) (hc : c ≤ U64_MAX)
    (h : a + b + c ≤ U64_MAX) :
    (add pol a b).bind (fun x => add pol x c) =
      (add pol b c).bind (fun y => add pol a y) ∧
    (add pol a b).bind (fun x => add pol x c) = some (a + b + c) := by
  have hab : add pol a b = some (a + b) := add_of_le pol a b (by omega)
  have hbc : add pol b c = some (b + c) := add_of_le pol b c (by omega)
  have habc : add pol (a + b) c = some (a + b + c) :=
    add_of_le pol (a + b) c h
  have habc' : add pol a (b + c) = some (a + (b + c)) :=
    add_of_le pol a (b + c) (by omega)
  constructor
  · rw [hab, hbc]
    simp [habc, habc', Nat.add_assoc]
  · rw [hab]
    simpa using habc

/-- Witness for C9 at `a = 1`, `b = 2`, `c = 3`. -/
theorem add_assoc_nonoverflow_witness :
    1 ≤ U64_MAX ∧ 2 ≤ U64_MAX ∧ 3 ≤ U64_MAX ∧ 1 + 2 + 3 ≤ U64_MAX ∧
      ((add OverflowPolicy.trap 1 2).bind
          (fun x => add OverflowPolicy.trap x 3) =
        (add OverflowPolicy.trap 2 3).bind
          (fun y => add OverflowPolicy.trap 1 y) ∧
      (add OverflowPolicy.trap 1 2).bind
          (fun x => add OverflowPolicy.trap x 3) = some 6) :=
  ⟨by decide, by decide, by decide, by decide,
    add_assoc_nonoverflow OverflowPolicy.trap 1 2 3
      (by decide) (by decide) (by decide) (by decide)⟩

/-- C10: `add` is monotone in each argument on non-overflowing inputs: when
`left + right` stays in range, the returned value is at least `left` and
at least `right`, under every policy. -/
theorem add_monotone (pol : OverflowPolicy) (left right : Nat)
    (hl : left ≤ U64_MAX) (hr : right ≤ U64_MAX)
    (h : left + right ≤ U64_MAX) :
    ∃ v, add pol left right = some v ∧ left ≤ v ∧ right ≤ v :=
  ⟨left + right, add_of_le pol left right h, by omega, by omega⟩

/-- Witness for C10 at `left = 10`, `right = 6`. -/
theorem add_monotone_witness :
    10 ≤ U64_MAX ∧ 6 ≤ U64_MAX ∧ 10 + 6 ≤ U64_MAX ∧
      ∃ v, add OverflowPolicy.wrap 10 6 = some v ∧ 10 ≤ v ∧ 6 ≤ v :=
  ⟨by decide, by decide, by decide,
    add_monotone OverflowPolicy.wrap 10 6 (by decide) (by decide) (by decide)⟩
